import Mathlib

/-!
Verification of the course-advisor system (curriculum extractor and
recommendation engine). The definitions below are a shallow embedding of
the JavaScript class CourseAdvisorSystem: the completed-courses Map is an
association list of key-value pairs, JS numbers are rationals (with a
separate JSNum type where division by zero and NaN matter), and the
regular-expression based line extractor is embedded through a small
backtracking matcher over lists of characters.
-/

/-- listIncl hay needle: true when needle occurs contiguously inside hay.
Embeds the JavaScript String.prototype.includes test used by the grade
evaluator. -/
def listIncl (hay needle : List Char) : Bool :=
  match hay with
  | [] => needle.isEmpty
  | _ :: t => needle.isPrefixOf hay || listIncl t needle

/-- strIncludes s sub: the JavaScript s.includes(sub). -/
def strIncludes (s sub : String) : Bool :=
  listIncl s.data sub.data

/-- A completed course record as built by parseTranscript: code, title,
grade token, numeric credit fields and the passed flag derived once at
creation from the grade evaluator. -/
structure CompletedCourse where
  code : String
  title : String
  grade : String
  credits : Rat
  ects : Rat
  gradePoints : Rat
  passed : Bool
deriving DecidableEq

/-- A curriculum course record as built by parseCurriculum. -/
structure CurriculumCourse where
  semester : Int
  code : String
  title : String
  category : String
  lecture : Int
  tutorial : Int
  lab : Int
  totalCredit : Int
  prerequisites : List String
  ects : Int
deriving DecidableEq

/-- An available-course entry (code and title) as built by
parseAvailableCourses. -/
structure AvailableCourse where
  code : String
  title : String
deriving DecidableEq

/-- The advisor session state: the three parsed collections plus the
student info. The JS Map of completed courses is embedded as an ordered
association list of (key, record) entries, exactly the shape the system
itself uses when persisting (Array.from(map.entries())). -/
structure AdvisorState where
  curriculum : List CurriculumCourse
  completedCourses : List (String × CompletedCourse)
  availableCourses : List AvailableCourse
  studentInfo : List (String × String)
deriving DecidableEq

/-- isPassingGrade from the source: a fixed list of failing tokens, a
fixed list of retake-marker substrings, default true otherwise. -/
def isPassingGrade (grade : String) : Bool :=
  let failingGrades : List String := ["F", "F*", "FF", "FD", "W"]
  let retakeIndicators : List String := ["(rst)"]
  if failingGrades.contains grade then false
  else if retakeIndicators.any (fun ind => strIncludes grade ind) then false
  else true

/-- Map.get on the embedded completed-courses association list. -/
def mapGet (m : List (String × CompletedCourse)) (k : String) : Option CompletedCourse :=
  (m.find? (fun e => e.1 == k)).map (fun e => e.2)

/-- arePrerequisitesMet from the source: an empty (or missing) list is
trivially met, otherwise every prerequisite code must be found in the
completed map and be marked passed. -/
def arePrerequisitesMet (completed : List (String × CompletedCourse))
    (course : CurriculumCourse) : Bool :=
  if course.prerequisites.isEmpty then true
  else course.prerequisites.all (fun prereq =>
    match mapGet completed prereq with
    | some c => c.passed
    | none => false)

/-- Array.from(this.completedCourses.values()).filter(passed) from the
source, shared by getCurrentSemester and generateProgressReport. -/
def passedValues (completed : List (String × CompletedCourse)) : List CompletedCourse :=
  (completed.map (fun e => e.2)).filter (fun c => c.passed)

/-- getCurrentSemester from the source: sum the credits of all passing
completed courses and return floor(total / 20) + 1. -/
def getCurrentSemester (completed : List (String × CompletedCourse)) : Int :=
  let totalCredits : Rat := (passedValues completed).foldl (fun sum c => sum + c.credits) 0
  Rat.floor (totalCredits / 20) + 1

/-- A JavaScript number as observed in the progress report: an actual
(rational) value, NaN, or a signed infinity. -/
inductive JSNum where
  | num : Rat → JSNum
  | nan : JSNum
  | inf : JSNum
  | neginf : JSNum
deriving DecidableEq

/-- JavaScript division: x / 0 is NaN when x = 0 and a signed infinity
otherwise; ordinary rational division elsewhere. -/
def jsDiv (a b : Rat) : JSNum :=
  if b = 0 then (if a = 0 then JSNum.nan else if 0 < a then JSNum.inf else JSNum.neginf)
  else JSNum.num (a / b)

/-- Multiplication by the literal 100 lifted to JSNum (NaN and the
infinities absorb). -/
def jsMul100 : JSNum → JSNum
  | JSNum.num q => JSNum.num (q * 100)
  | JSNum.nan => JSNum.nan
  | JSNum.inf => JSNum.inf
  | JSNum.neginf => JSNum.neginf

/-- Math.round lifted to JSNum: floor(q + 1/2) on numbers, identity on
NaN and the infinities. -/
def jsRound : JSNum → JSNum
  | JSNum.num q => JSNum.num ((Rat.floor (q + 1/2) : Int) : Rat)
  | x => x

/-- One step of the categoryStats accumulation in generateProgressReport:
bump the required count of the category (and the completed count when the
course code is a passing completed course), creating the entry on first
sight. -/
def bumpCategory (stats : List (String × Nat × Nat)) (cat : String) (done : Bool) :
    List (String × Nat × Nat) :=
  match stats with
  | [] => [(cat, 1, if done then 1 else 0)]
  | (c, req, comp) :: rest =>
      if c == cat then (c, req + 1, if done then comp + 1 else comp) :: rest
      else (c, req, comp) :: bumpCategory rest cat done

/-- The progress report record returned by generateProgressReport. -/
structure ProgressReport where
  studentInfo : List (String × String)
  currentSemester : Int
  totalECTS : Rat
  totalCredits : Rat
  completedCourses : Nat
  totalRequiredCourses : Nat
  categoryStats : List (String × Nat × Nat)
  completionPercentage : JSNum
deriving DecidableEq

/-- generateProgressReport from the source. The completion percentage is
Math.round((completedCount / curriculumLength) * 100) with JavaScript
number semantics, hence NaN or Infinity on an empty curriculum. -/
def generateProgressReport (st : AdvisorState) : ProgressReport :=
  let completedList := passedValues st.completedCourses
  let totalECTS : Rat := completedList.foldl (fun sum c => sum + c.ects) 0
  let totalCredits : Rat := completedList.foldl (fun sum c => sum + c.credits) 0
  let currentSemester := getCurrentSemester st.completedCourses
  let categoryStats := st.curriculum.foldl
    (fun stats course =>
      bumpCategory stats course.category
        (match mapGet st.completedCourses course.code with
         | some c => c.passed
         | none => false)) []
  { studentInfo := st.studentInfo
    currentSemester := currentSemester
    totalECTS := totalECTS
    totalCredits := totalCredits
    completedCourses := completedList.length
    totalRequiredCourses := st.curriculum.length
    categoryStats := categoryStats
    completionPercentage :=
      jsRound (jsMul100 (jsDiv (completedList.length : Rat) (st.curriculum.length : Rat))) }

/-- Helper: the truth value of the matcher body used by
arePrerequisitesMet, characterised as an existence statement. -/
theorem prereqEntry_iff (o : Option CompletedCourse) :
    (match o with
     | some c => c.passed
     | none => false) = true ↔ ∃ c, o = some c ∧ c.passed = true := by
  cases o with
  | none => simp
  | some c => simp

/-- C4: isPassingGrade returns false exactly on the five fixed failing
tokens and on grades containing the retake marker; every other string
(the function is total) yields true. -/
theorem isPassingGrade_false_iff (g : String) :
    isPassingGrade g = false ↔
      (g ∈ (["F", "F*", "FF", "FD", "W"] : List String) ∨
        strIncludes g "(rst)" = true) := by
  simp only [isPassingGrade]
  by_cases h1 : (["F", "F*", "FF", "FD", "W"] : List String).contains g = true
  · rw [if_pos h1]
    have hmem : g ∈ (["F", "F*", "FF", "FD", "W"] : List String) := by
      simpa using h1
    simp [hmem]
  · rw [if_neg h1]
    have hmem : ¬ g ∈ (["F", "F*", "FF", "FD", "W"] : List String) := by
      intro hm
      exact h1 (by simpa using hm)
    by_cases h2 : strIncludes g "(rst)" = true
    · have hany : (["(rst)"] : List String).any (fun ind => strIncludes g ind) = true := by
        simp [h2]
      rw [if_pos hany]
      simp [h2]
    · have hany : ¬ (["(rst)"] : List String).any (fun ind => strIncludes g ind) = true := by
        simp [h2]
      rw [if_neg hany]
      simp [hmem, h2]

/-- C5: arePrerequisitesMet is true exactly when every prerequisite code
is present in the completed map with a passing entry; in particular an
empty prerequisite list is trivially met, and any prerequisite absent
from the map forces false. -/
theorem arePrerequisitesMet_iff (completed : List (String × CompletedCourse))
    (course : CurriculumCourse) :
    (arePrerequisitesMet completed course = true ↔
      ∀ p ∈ course.prerequisites, ∃ c, mapGet completed p = some c ∧ c.passed = true)
    ∧ (course.prerequisites = [] → arePrerequisitesMet completed course = true)
    ∧ ((∃ p ∈ course.prerequisites, mapGet completed p = none) →
        arePrerequisitesMet completed course = false) := by
  have hmain : arePrerequisitesMet completed course = true ↔
      ∀ p ∈ course.prerequisites, ∃ c, mapGet completed p = some c ∧ c.passed = true := by
    unfold arePrerequisitesMet
    by_cases he : course.prerequisites.isEmpty = true
    · rw [if_pos he]
      rw [List.isEmpty_iff] at he
      simp [he]
    · rw [if_neg he]
      rw [List.all_eq_true]
      constructor
      · intro h p hp
        exact (prereqEntry_iff (mapGet completed p)).mp (h p hp)
      · intro h p hp
        exact (prereqEntry_iff (mapGet completed p)).mpr (h p hp)
  refine ⟨hmain, ?_, ?_⟩
  · intro he
    exact hmain.mpr (by simp [he])
  · rintro ⟨p, hp, hnone⟩
    cases hb : arePrerequisitesMet completed course with
    | false => rfl
    | true =>
        rcases (hmain.mp hb) p hp with ⟨c, hc, _⟩
        rw [hnone] at hc
        exact absurd hc (by simp)

/-- Witness for C5 at a concrete input: a course whose single
prerequisite is absent from an empty completed map is not met. -/
theorem arePrerequisitesMet_iff_witness :
    arePrerequisitesMet []
      { semester := 2, code := "CS102", title := "Data Structures", category := "AC",
        lecture := 3, tutorial := 1, lab := 2, totalCredit := 6,
        prerequisites := ["CS101"], ects := 6 } = false :=
  (arePrerequisitesMet_iff []
    { semester := 2, code := "CS102", title := "Data Structures", category := "AC",
      lecture := 3, tutorial := 1, lab := 2, totalCredit := 6,
      prerequisites := ["CS101"], ects := 6 }).2.2
    ⟨"CS101", by decide, by decide⟩

/-- Folding addition of a projection starting from an accumulator equals
the accumulator plus the sum of the mapped list. -/
theorem foldl_add_proj (f : CompletedCourse → Rat) (l : List CompletedCourse) (a : Rat) :
    l.foldl (fun sum c => sum + f c) a = a + (l.map f).sum := by
  induction l generalizing a with
  | nil => simp
  | cons c t ih =>
      simp only [List.foldl_cons, List.map_cons, List.sum_cons, ih (a + f c)]
      ring

/-- C6: the current-semester estimate is floor(total/20) + 1 where total
sums the credit fields of exactly the passing completed courses,
appending a failing course leaves the estimate unchanged, and a single
passing 6-credit course gives estimate floor(6/20) + 1 = 1. -/
theorem getCurrentSemester_eq (completed : List (String × CompletedCourse)) :
    (getCurrentSemester completed =
      Rat.floor (((passedValues completed).map (fun c => c.credits)).sum / 20) + 1)
    ∧ (∀ (k : String) (c : CompletedCourse), c.passed = false →
        getCurrentSemester (completed ++ [(k, c)]) = getCurrentSemester completed)
    ∧ getCurrentSemester
        [("CS101",
          { code := "CS101", title := "Intro", grade := "A", credits := 6, ects := 6,
            gradePoints := 4, passed := true })] = 1 := by
  refine ⟨?_, ?_, ?_⟩
  · unfold getCurrentSemester
    rw [foldl_add_proj (fun c => c.credits) (passedValues completed) 0]
    simp
  · intro k c hc
    have hsame : passedValues (completed ++ [(k, c)]) = passedValues completed := by
      unfold passedValues
      simp [List.filter_append, hc]
    unfold getCurrentSemester
    rw [hsame]
  · show Rat.floor _ + 1 = 1
    norm_num [getCurrentSemester, passedValues, Rat.floor_def']

/-- Witness for C6 at a concrete input: appending a failing 5-credit
course to the one-passing-course collection leaves the estimate
unchanged. -/
theorem getCurrentSemester_eq_witness :
    getCurrentSemester
        ([("CS101",
           { code := "CS101", title := "Intro", grade := "A", credits := 6, ects := 6,
             gradePoints := 4, passed := true })] ++
          [("PHYS101",
            { code := "PHYS101", title := "Physics", grade := "F", credits := 5, ects := 5,
              gradePoints := 0, passed := false })]) =
      getCurrentSemester
        [("CS101",
          { code := "CS101", title := "Intro", grade := "A", credits := 6, ects := 6,
            gradePoints := 4, passed := true })] :=
  (getCurrentSemester_eq
      [("CS101",
        { code := "CS101", title := "Intro", grade := "A", credits := 6, ects := 6,
          gradePoints := 4, passed := true })]).2.1 "PHYS101"
      { code := "PHYS101", title := "Physics", grade := "F", credits := 5, ects := 5,
        gradePoints := 0, passed := false } (by decide)

/-- C3 counterexample: on an empty curriculum (and empty completed
collection) the completion percentage is the JavaScript NaN produced by
0/0, not the sentinel 0 the claim states. -/
theorem completionPercentage_empty_counterexample :
    (generateProgressReport
        { curriculum := [], completedCourses := [], availableCourses := [],
          studentInfo := [] }).completionPercentage = JSNum.nan
    ∧ JSNum.nan ≠ JSNum.num 0 := by
  constructor
  · decide
  · decide

/-- C3 amended: with an empty curriculum the completion percentage is a
defined JavaScript value and no error is raised, but it is NaN (when no
passing completed course exists) or Infinity (otherwise), never the
number 0. -/
theorem completionPercentage_empty_eq (completed : List (String × CompletedCourse))
    (avail : List AvailableCourse) (sinfo : List (String × String)) :
    (((passedValues completed).length = 0) →
      (generateProgressReport
          { curriculum := [], completedCourses := completed, availableCourses := avail,
            studentInfo := sinfo }).completionPercentage = JSNum.nan)
    ∧ (((passedValues completed).length ≠ 0) →
      (generateProgressReport
          { curriculum := [], completedCourses := completed, availableCourses := avail,
            studentInfo := sinfo }).completionPercentage = JSNum.inf) := by
  constructor
  · intro h
    simp [generateProgressReport, jsDiv, jsMul100, jsRound, h]
  · intro h
    have hpos : 0 < ((passedValues completed).length : Rat) := by
      have : 0 < (passedValues completed).length := Nat.pos_of_ne_zero h
      exact_mod_cast this
    simp [generateProgressReport, jsDiv, jsMul100, jsRound, Nat.pos_of_ne_zero h,
      hpos, ne_of_gt hpos]

/-- Witness for the amended C3 at a concrete input: one passing completed
course and an empty curriculum give Infinity. -/
theorem completionPercentage_empty_eq_witness :
    (generateProgressReport
        { curriculum := [],
          completedCourses :=
            [("CS101",
              { code := "CS101", title := "Intro", grade := "A", credits := 6, ects := 6,
                gradePoints := 4, passed := true })],
          availableCourses := [], studentInfo := [] }).completionPercentage = JSNum.inf :=
  (completionPercentage_empty_eq
      [("CS101",
        { code := "CS101", title := "Intro", grade := "A", credits := 6, ects := 6,
          gradePoints := 4, passed := true })] [] []).2 (by decide)

/-- Keys of the passing completed-course entries, in insertion order: the
contents of the completedCourseCodes set built by getRecommendedCourses. -/
def passedKeys (completed : List (String × CompletedCourse)) : List String :=
  (completed.filter (fun e => e.2.passed)).map (fun e => e.1)

/-- code.replace([A-Z]$, empty) from the source: strip one trailing
uppercase letter when present. -/
def baseCode (code : String) : String :=
  match code.data.getLast? with
  | some c => if 'A' ≤ c ∧ c ≤ 'Z' then String.mk code.data.dropLast else code
  | none => code

/-- Contents of the completedCourseBaseCodes set built by
getRecommendedCourses: the base code of every passing key, plus every
passing key itself. -/
def passedBaseKeys (completed : List (String × CompletedCourse)) : List String :=
  (passedKeys completed).map baseCode ++ passedKeys completed

/-- The skip-if-already-completed test of getRecommendedCourses: the
course code is in the completed set or the base-code set. -/
def isCompletedCode (completed : List (String × CompletedCourse)) (code : String) : Bool :=
  (passedKeys completed).contains code || (passedBaseKeys completed).contains code

/-- this.availableCourses.some(avail like avail.code === course.code). -/
def isAvailable (avail : List AvailableCourse) (course : CurriculumCourse) : Bool :=
  avail.any (fun a => a.code == course.code)

/-- The nextSemesterCourses guard of getRecommendedCourses: semester
equals the estimate or estimate + 1, or the high-semester catch-up
clause, or semester within two of the estimate. -/
def nextSemesterCond (completed : List (String × CompletedCourse)) (currentSemester : Int)
    (course : CurriculumCourse) : Bool :=
  course.semester == currentSemester ||
  course.semester == currentSemester + 1 ||
  (decide (currentSemester > 8) && decide (course.semester ≤ 8) &&
    !(passedKeys completed).contains course.code &&
    !(passedBaseKeys completed).contains course.code) ||
  (decide (course.semester ≤ currentSemester + 2) &&
    decide (course.semester ≥ currentSemester - 2))

/-- The electives guard of getRecommendedCourses: category AE, FE or UE. -/
def isElectiveCategory (course : CurriculumCourse) : Bool :=
  course.category == "AE" || course.category == "FE" || course.category == "UE"

/-- calculatePriority from the source: category bonus, expected-semester
bonus, high-semester catch-up bonus, delay penalty and the unlock bonus
scanning the whole curriculum. -/
def calculatePriority (curriculum : List CurriculumCourse) (course : CurriculumCourse)
    (currentSemester : Int) : Int :=
  let p1 : Int := if course.category = "AC" then 10 else 0
  let p2 : Int := if course.category = "FC" then p1 + 8 else p1
  let p3 : Int := if course.category = "UC" then p2 + 6 else p2
  let p4 : Int := if course.semester = currentSemester then p3 + 5 else p3
  let p5 : Int := if course.semester = currentSemester + 1 then p4 + 3 else p4
  let p6 : Int := if currentSemester > 8 ∧ course.semester ≤ 8 then p5 + 4 else p5
  let p7 : Int :=
    if course.semester < currentSemester then p6 - (if currentSemester > 8 then 1 else 2)
    else p6
  let unlocks := (curriculum.filter (fun c => c.prerequisites.contains course.code)).length
  p7 + (unlocks : Int) * 2

/-- getRecommendationReason from the source: comma-joined timing,
category and unlock fragments. -/
def getRecommendationReason (curriculum : List CurriculumCourse) (course : CurriculumCourse)
    (currentSemester : Int) : String :=
  let timing : List String :=
    if course.semester = currentSemester then ["Current semester course"]
    else if course.semester = currentSemester + 1 then ["Next semester course"]
    else if course.semester < currentSemester then ["Delayed from previous semester"]
    else []
  let areaCore : List String := if course.category = "AC" then ["Area Core requirement"] else []
  let facCore : List String := if course.category = "FC" then ["Faculty Core requirement"] else []
  let unlocks := (curriculum.filter (fun c => c.prerequisites.contains course.code)).length
  let unlockNote : List String :=
    if unlocks > 0 then ["Prerequisite for " ++ toString unlocks ++ " other courses"] else []
  String.intercalate ", " (timing ++ areaCore ++ facCore ++ unlockNote)

/-- A nextSemesterCourses entry: the curriculum course spread together
with its priority and reason annotations. -/
structure RecCourse where
  course : CurriculumCourse
  priority : Int
  reason : String
deriving DecidableEq

/-- The four recommendation buckets returned by getRecommendedCourses. -/
structure Recommendations where
  nextSemesterCourses : List RecCourse
  availableElectives : List CurriculumCourse
  missedCourses : List CurriculumCourse
  futureRecommendations : List CurriculumCourse
deriving DecidableEq

/-- The three-part eligibility filter of getRecommendedCourses: not
completed, offered in the availability collection, prerequisites met. -/
def eligibleCourse (st : AdvisorState) (course : CurriculumCourse) : Bool :=
  !(isCompletedCode st.completedCourses course.code) &&
  isAvailable st.availableCourses course &&
  arePrerequisitesMet st.completedCourses course

/-- Build the annotated nextSemesterCourses entry for a course. -/
def mkRecCourse (st : AdvisorState) (currentSemester : Int) (course : CurriculumCourse) :
    RecCourse :=
  { course := course
    priority := calculatePriority st.curriculum course currentSemester
    reason := getRecommendationReason st.curriculum course currentSemester }

/-- The body of the per-course loop of getRecommendedCourses: skip the
completed, unavailable and prerequisite-lacking courses, then place the
candidate into the first bucket whose guard holds. -/
def bucketStep (st : AdvisorState) (currentSemester : Int) (acc : Recommendations)
    (course : CurriculumCourse) : Recommendations :=
  if isCompletedCode st.completedCourses course.code then acc
  else if !(isAvailable st.availableCourses course) then acc
  else if !(arePrerequisitesMet st.completedCourses course) then acc
  else if nextSemesterCond st.completedCourses currentSemester course then
    { acc with nextSemesterCourses :=
        acc.nextSemesterCourses ++ [mkRecCourse st currentSemester course] }
  else if isElectiveCategory course then
    { acc with availableElectives := acc.availableElectives ++ [course] }
  else if course.semester < currentSemester then
    { acc with missedCourses := acc.missedCourses ++ [course] }
  else
    { acc with futureRecommendations := acc.futureRecommendations ++ [course] }

/-- Descending stable insertion: the element goes after every entry with
a strictly larger priority, hence before all earlier-equal entries it
never overtakes. This is the effect of the stable JavaScript
Array.prototype.sort with comparator (a, b) => b.priority - a.priority. -/
def insertByPriority (r : RecCourse) : List RecCourse → List RecCourse
  | [] => [r]
  | x :: xs => if x.priority > r.priority then x :: insertByPriority r xs else r :: x :: xs

/-- Stable sort by descending priority of the nextSemesterCourses list. -/
def sortByPriorityDesc : List RecCourse → List RecCourse
  | [] => []
  | x :: xs => insertByPriority x (sortByPriorityDesc xs)

/-- getRecommendedCourses from the source: fold the classification loop
over the curriculum and sort nextSemesterCourses by descending
priority. -/
def getRecommendedCourses (st : AdvisorState) : Recommendations :=
  let currentSemester := getCurrentSemester st.completedCourses
  let recs := st.curriculum.foldl (bucketStep st currentSemester)
    { nextSemesterCourses := [], availableElectives := [], missedCourses := [],
      futureRecommendations := [] }
  { recs with nextSemesterCourses := sortByPriorityDesc recs.nextSemesterCourses }

/-- Predicate for landing in nextSemesterCourses: eligible and
first-guard true. -/
def nextPred (st : AdvisorState) (currentSemester : Int) (c : CurriculumCourse) : Bool :=
  eligibleCourse st c && nextSemesterCond st.completedCourses currentSemester c

/-- Predicate for landing in availableElectives: eligible, first guard
false, elective category. -/
def electPred (st : AdvisorState) (currentSemester : Int) (c : CurriculumCourse) : Bool :=
  eligibleCourse st c && !(nextSemesterCond st.completedCourses currentSemester c) &&
    isElectiveCategory c

/-- Predicate for landing in missedCourses: eligible, first two guards
false, semester strictly below the estimate. -/
def missedPred (st : AdvisorState) (currentSemester : Int) (c : CurriculumCourse) : Bool :=
  eligibleCourse st c && !(nextSemesterCond st.completedCourses currentSemester c) &&
    !(isElectiveCategory c) && decide (c.semester < currentSemester)

/-- Predicate for landing in futureRecommendations: eligible and all
three previous guards false. -/
def futurePred (st : AdvisorState) (currentSemester : Int) (c : CurriculumCourse) : Bool :=
  eligibleCourse st c && !(nextSemesterCond st.completedCourses currentSemester c) &&
    !(isElectiveCategory c) && !(decide (c.semester < currentSemester))

/-- The classification fold appends to each bucket exactly the courses
satisfying that bucket's first-match predicate, in curriculum order. -/
theorem foldl_bucketStep (st : AdvisorState) (cur : Int) (l : List CurriculumCourse)
    (acc : Recommendations) :
    (l.foldl (bucketStep st cur) acc).nextSemesterCourses
        = acc.nextSemesterCourses ++ (l.filter (nextPred st cur)).map (mkRecCourse st cur)
    ∧ (l.foldl (bucketStep st cur) acc).availableElectives
        = acc.availableElectives ++ l.filter (electPred st cur)
    ∧ (l.foldl (bucketStep st cur) acc).missedCourses
        = acc.missedCourses ++ l.filter (missedPred st cur)
    ∧ (l.foldl (bucketStep st cur) acc).futureRecommendations
        = acc.futureRecommendations ++ l.filter (futurePred st cur) := by
  induction l generalizing acc with
  | nil => simp
  | cons c t ih =>
    simp only [List.foldl_cons, List.filter_cons]
    by_cases h1 : isCompletedCode st.completedCourses c.code = true
    · have hb : bucketStep st cur acc c = acc := by
        simp [bucketStep, h1]
      have hn : nextPred st cur c = false := by simp [nextPred, eligibleCourse, h1]
      have he : electPred st cur c = false := by simp [electPred, eligibleCourse, h1]
      have hm : missedPred st cur c = false := by simp [missedPred, eligibleCourse, h1]
      have hf : futurePred st cur c = false := by simp [futurePred, eligibleCourse, h1]
      rw [hb]
      simpa [hn, he, hm, hf] using ih acc
    · by_cases h2 : isAvailable st.availableCourses c = true
      · by_cases h3 : arePrerequisitesMet st.completedCourses c = true
        · have helig : eligibleCourse st c = true := by
            simp [eligibleCourse, h1, h2, h3]
          by_cases h4 : nextSemesterCond st.completedCourses cur c = true
          · have hb : bucketStep st cur acc c =
                { acc with nextSemesterCourses :=
                    acc.nextSemesterCourses ++ [mkRecCourse st cur c] } := by
              simp [bucketStep, h1, h2, h3, h4]
            have hn : nextPred st cur c = true := by simp [nextPred, helig, h4]
            have he : electPred st cur c = false := by simp [electPred, h4]
            have hm : missedPred st cur c = false := by simp [missedPred, h4]
            have hf : futurePred st cur c = false := by simp [futurePred, h4]
            rw [hb]
            have := ih { acc with nextSemesterCourses :=
                acc.nextSemesterCourses ++ [mkRecCourse st cur c] }
            simpa [hn, he, hm, hf, List.append_assoc] using this
          · by_cases h5 : isElectiveCategory c = true
            · have hb : bucketStep st cur acc c =
                  { acc with availableElectives := acc.availableElectives ++ [c] } := by
                simp [bucketStep, h1, h2, h3, h4, h5]
              have hn : nextPred st cur c = false := by simp [nextPred, h4]
              have he : electPred st cur c = true := by simp [electPred, helig, h4, h5]
              have hm : missedPred st cur c = false := by simp [missedPred, h5]
              have hf : futurePred st cur c = false := by simp [futurePred, h5]
              rw [hb]
              have := ih { acc with availableElectives := acc.availableElectives ++ [c] }
              simpa [hn, he, hm, hf, List.append_assoc] using this
            · by_cases h6 : c.semester < cur
              · have hb : bucketStep st cur acc c =
                    { acc with missedCourses := acc.missedCourses ++ [c] } := by
                  simp [bucketStep, h1, h2, h3, h4, h5, h6]
                have hn : nextPred st cur c = false := by simp [nextPred, h4]
                have he : electPred st cur c = false := by simp [electPred, h5]
                have hm : missedPred st cur c = true := by
                  simp [missedPred, helig, h4, h5, h6]
                have hf : futurePred st cur c = false := by simp [futurePred, h6]
                rw [hb]
                have := ih { acc with missedCourses := acc.missedCourses ++ [c] }
                simpa [hn, he, hm, hf, List.append_assoc] using this
              · have hb : bucketStep st cur acc c =
                    { acc with futureRecommendations := acc.futureRecommendations ++ [c] } := by
                  simp [bucketStep, h1, h2, h3, h4, h5, h6]
                have hn : nextPred st cur c = false := by simp [nextPred, h4]
                have he : electPred st cur c = false := by simp [electPred, h5]
                have hm : missedPred st cur c = false := by simp [missedPred, h6]
                have hf : futurePred st cur c = true := by
                  simp [futurePred, helig, h4, h5, h6]
                rw [hb]
                have := ih { acc with futureRecommendations :=
                    acc.futureRecommendations ++ [c] }
                simpa [hn, he, hm, hf, List.append_assoc] using this
        · have hb : bucketStep st cur acc c = acc := by
            simp [bucketStep, h1, h2, h3]
          have helig : eligibleCourse st c = false := by
            simp [eligibleCourse, h3]
          have hn : nextPred st cur c = false := by simp [nextPred, helig]
          have he : electPred st cur c = false := by simp [electPred, helig]
          have hm : missedPred st cur c = false := by simp [missedPred, helig]
          have hf : futurePred st cur c = false := by simp [futurePred, helig]
          rw [hb]
          simpa [hn, he, hm, hf] using ih acc
      · have hb : bucketStep st cur acc c = acc := by
          simp [bucketStep, h1, h2]
        have helig : eligibleCourse st c = false := by
          simp [eligibleCourse, h2]
        have hn : nextPred st cur c = false := by simp [nextPred, helig]
        have he : electPred st cur c = false := by simp [electPred, helig]
        have hm : missedPred st cur c = false := by simp [missedPred, helig]
        have hf : futurePred st cur c = false := by simp [futurePred, helig]
        rw [hb]
        simpa [hn, he, hm, hf] using ih acc

/-- The four buckets of getRecommendedCourses, written as filters of the
curriculum (with nextSemesterCourses additionally annotated and
sorted). -/
theorem getRecommendedCourses_eq (st : AdvisorState) :
    (getRecommendedCourses st).nextSemesterCourses
        = sortByPriorityDesc
            ((st.curriculum.filter (nextPred st (getCurrentSemester st.completedCourses))).map
              (mkRecCourse st (getCurrentSemester st.completedCourses)))
    ∧ (getRecommendedCourses st).availableElectives
        = st.curriculum.filter (electPred st (getCurrentSemester st.completedCourses))
    ∧ (getRecommendedCourses st).missedCourses
        = st.curriculum.filter (missedPred st (getCurrentSemester st.completedCourses))
    ∧ (getRecommendedCourses st).futureRecommendations
        = st.curriculum.filter (futurePred st (getCurrentSemester st.completedCourses)) := by
  have h := foldl_bucketStep st (getCurrentSemester st.completedCourses) st.curriculum
    { nextSemesterCourses := [], availableElectives := [], missedCourses := [],
      futureRecommendations := [] }
  refine ⟨?_, ?_, ?_, ?_⟩
  · simp only [getRecommendedCourses, h.1]
    simp
  · simp only [getRecommendedCourses]
    simpa using h.2.1
  · simp only [getRecommendedCourses]
    simpa using h.2.2.1
  · simp only [getRecommendedCourses]
    simpa using h.2.2.2

/-- Membership in a priority insertion. -/
theorem mem_insertByPriority (r a : RecCourse) (l : List RecCourse) :
    a ∈ insertByPriority r l ↔ a = r ∨ a ∈ l := by
  induction l with
  | nil => simp [insertByPriority]
  | cons x xs ih =>
    simp only [insertByPriority]
    by_cases hx : x.priority > r.priority
    · rw [if_pos hx]
      simp [ih]
      tauto
    · rw [if_neg hx]
      simp

/-- Membership is preserved by the descending priority sort. -/
theorem mem_sortByPriorityDesc (a : RecCourse) (l : List RecCourse) :
    a ∈ sortByPriorityDesc l ↔ a ∈ l := by
  induction l with
  | nil => simp [sortByPriorityDesc]
  | cons x xs ih =>
    simp only [sortByPriorityDesc]
    rw [mem_insertByPriority]
    simp [ih]

/-- Insertion preserves the descending pairwise order. -/
theorem pairwise_insertByPriority (r : RecCourse) (l : List RecCourse)
    (h : l.Pairwise (fun a b => b.priority ≤ a.priority)) :
    (insertByPriority r l).Pairwise (fun a b => b.priority ≤ a.priority) := by
  induction l with
  | nil => simp [insertByPriority]
  | cons x xs ih =>
    simp only [insertByPriority]
    rcases List.pairwise_cons.mp h with ⟨hx, hxs⟩
    by_cases hgt : x.priority > r.priority
    · rw [if_pos hgt]
      refine List.pairwise_cons.mpr ⟨?_, ih hxs⟩
      intro b hb
      rcases (mem_insertByPriority r b xs).mp hb with hb | hb
      · subst hb
        exact le_of_lt hgt
      · exact hx b hb
    · rw [if_neg hgt]
      refine List.pairwise_cons.mpr ⟨?_, h⟩
      intro b hb
      rcases List.mem_cons.mp hb with hb | hb
      · subst hb
        exact le_of_not_lt hgt
      · exact le_trans (hx b hb) (le_of_not_lt hgt)

/-- The sorted nextSemesterCourses list is pairwise descending in
priority. -/
theorem pairwise_sortByPriorityDesc (l : List RecCourse) :
    (sortByPriorityDesc l).Pairwise (fun a b => b.priority ≤ a.priority) := by
  induction l with
  | nil => simp [sortByPriorityDesc]
  | cons x xs ih =>
    exact pairwise_insertByPriority x (sortByPriorityDesc xs) ih

/-- Filtering one priority level through an insertion: the inserted
element lands in front of the equal-priority entries (all of which came
later in the input) and other levels are untouched. -/
theorem filter_insertByPriority (r : RecCourse) (l : List RecCourse) (p : Int) :
    (insertByPriority r l).filter (fun x => x.priority == p)
      = if r.priority = p then r :: l.filter (fun x => x.priority == p)
        else l.filter (fun x => x.priority == p) := by
  induction l with
  | nil =>
    by_cases hr : r.priority = p
    · simp [insertByPriority, hr]
    · have hb : (r.priority == p) = false := beq_eq_false_iff_ne.mpr hr
      simp only [insertByPriority, List.filter, hb]
      rw [if_neg hr]
  | cons x xs ih =>
    simp only [insertByPriority]
    by_cases hgt : x.priority > r.priority
    · rw [if_pos hgt]
      by_cases hr : r.priority = p
      · have hx : ¬ x.priority = p := by
          intro hxp
          rw [hxp, ← hr] at hgt
          exact lt_irrefl _ hgt
        simp [List.filter_cons, hx, ih, hr]
      · simp [List.filter_cons, ih, hr]
    · rw [if_neg hgt]
      by_cases hr : r.priority = p
      · simp [List.filter_cons, hr]
      · simp [List.filter_cons, hr]

/-- Stability of the descending sort: within each priority level the
sorted list preserves the input order. -/
theorem filter_sortByPriorityDesc (l : List RecCourse) (p : Int) :
    (sortByPriorityDesc l).filter (fun x => x.priority == p)
      = l.filter (fun x => x.priority == p) := by
  induction l with
  | nil => simp [sortByPriorityDesc]
  | cons x xs ih =>
    simp only [sortByPriorityDesc]
    rw [filter_insertByPriority]
    by_cases hx : x.priority = p
    · simp [List.filter_cons, hx, ih]
    · simp [List.filter_cons, hx, ih]

/-- A course whose nextSemesterCourses predicate fails never appears as
the course of a nextSemesterCourses entry. -/
theorem not_in_next_of (st : AdvisorState) (c : CurriculumCourse)
    (h : nextPred st (getCurrentSemester st.completedCourses) c = false) :
    ∀ r ∈ (getRecommendedCourses st).nextSemesterCourses, r.course ≠ c := by
  intro r hr hcourse
  rw [(getRecommendedCourses_eq st).1, mem_sortByPriorityDesc] at hr
  rcases List.mem_map.mp hr with ⟨c', hc', hmk⟩
  have hcc : c' = c := by
    rw [← hmk] at hcourse
    simpa [mkRecCourse] using hcourse
  subst hcc
  have hpred := (List.mem_filter.mp hc').2
  rw [h] at hpred
  exact Bool.false_ne_true hpred

/-- A course whose electives predicate fails is not in
availableElectives. -/
theorem not_in_elect_of (st : AdvisorState) (c : CurriculumCourse)
    (h : electPred st (getCurrentSemester st.completedCourses) c = false) :
    c ∉ (getRecommendedCourses st).availableElectives := by
  intro hmem
  rw [(getRecommendedCourses_eq st).2.1] at hmem
  have hpred := (List.mem_filter.mp hmem).2
  rw [h] at hpred
  exact Bool.false_ne_true hpred

/-- A course whose missed predicate fails is not in missedCourses. -/
theorem not_in_missed_of (st : AdvisorState) (c : CurriculumCourse)
    (h : missedPred st (getCurrentSemester st.completedCourses) c = false) :
    c ∉ (getRecommendedCourses st).missedCourses := by
  intro hmem
  rw [(getRecommendedCourses_eq st).2.2.1] at hmem
  have hpred := (List.mem_filter.mp hmem).2
  rw [h] at hpred
  exact Bool.false_ne_true hpred

/-- A course whose future predicate fails is not in
futureRecommendations. -/
theorem not_in_future_of (st : AdvisorState) (c : CurriculumCourse)
    (h : futurePred st (getCurrentSemester st.completedCourses) c = false) :
    c ∉ (getRecommendedCourses st).futureRecommendations := by
  intro hmem
  rw [(getRecommendedCourses_eq st).2.2.2] at hmem
  have hpred := (List.mem_filter.mp hmem).2
  rw [h] at hpred
  exact Bool.false_ne_true hpred

/-- An ineligible course appears in none of the four buckets. -/
theorem not_in_buckets (st : AdvisorState) (c : CurriculumCourse)
    (h : eligibleCourse st c = false) :
    (∀ r ∈ (getRecommendedCourses st).nextSemesterCourses, r.course ≠ c)
    ∧ c ∉ (getRecommendedCourses st).availableElectives
    ∧ c ∉ (getRecommendedCourses st).missedCourses
    ∧ c ∉ (getRecommendedCourses st).futureRecommendations :=
  ⟨not_in_next_of st c (by simp [nextPred, h]),
   not_in_elect_of st c (by simp [electPred, h]),
   not_in_missed_of st c (by simp [missedPred, h]),
   not_in_future_of st c (by simp [futurePred, h])⟩

/-- C1: a curriculum course is bucketed only when it passes the
three-part eligibility filter (not completed, available, prerequisites
met), and an eligible candidate goes into exactly one bucket, chosen
first-match-wins: nextSemesterCourses on the semester guard, else
availableElectives on an elective category, else missedCourses when its
semester is below the estimate, else futureRecommendations. -/
theorem getRecommendedCourses_classification (st : AdvisorState) (c : CurriculumCourse)
    (hc : c ∈ st.curriculum) :
    (eligibleCourse st c = false →
      (∀ r ∈ (getRecommendedCourses st).nextSemesterCourses, r.course ≠ c)
      ∧ c ∉ (getRecommendedCourses st).availableElectives
      ∧ c ∉ (getRecommendedCourses st).missedCourses
      ∧ c ∉ (getRecommendedCourses st).futureRecommendations)
    ∧ (eligibleCourse st c = true →
      ((nextSemesterCond st.completedCourses (getCurrentSemester st.completedCourses) c = true →
          mkRecCourse st (getCurrentSemester st.completedCourses) c
              ∈ (getRecommendedCourses st).nextSemesterCourses
          ∧ c ∉ (getRecommendedCourses st).availableElectives
          ∧ c ∉ (getRecommendedCourses st).missedCourses
          ∧ c ∉ (getRecommendedCourses st).futureRecommendations)
       ∧ (nextSemesterCond st.completedCourses (getCurrentSemester st.completedCourses) c = false →
          isElectiveCategory c = true →
          c ∈ (getRecommendedCourses st).availableElectives
          ∧ (∀ r ∈ (getRecommendedCourses st).nextSemesterCourses, r.course ≠ c)
          ∧ c ∉ (getRecommendedCourses st).missedCourses
          ∧ c ∉ (getRecommendedCourses st).futureRecommendations)
       ∧ (nextSemesterCond st.completedCourses (getCurrentSemester st.completedCourses) c = false →
          isElectiveCategory c = false →
          c.semester < getCurrentSemester st.completedCourses →
          c ∈ (getRecommendedCourses st).missedCourses
          ∧ (∀ r ∈ (getRecommendedCourses st).nextSemesterCourses, r.course ≠ c)
          ∧ c ∉ (getRecommendedCourses st).availableElectives
          ∧ c ∉ (getRecommendedCourses st).futureRecommendations)
       ∧ (nextSemesterCond st.completedCourses (getCurrentSemester st.completedCourses) c = false →
          isElectiveCategory c = false →
          ¬ (c.semester < getCurrentSemester st.completedCourses) →
          c ∈ (getRecommendedCourses st).futureRecommendations
          ∧ (∀ r ∈ (getRecommendedCourses st).nextSemesterCourses, r.course ≠ c)
          ∧ c ∉ (getRecommendedCourses st).availableElectives
          ∧ c ∉ (getRecommendedCourses st).missedCourses))) := by
  constructor
  · intro h
    exact not_in_buckets st c h
  · intro helig
    refine ⟨?_, ?_, ?_, ?_⟩
    · intro h4
      refine ⟨?_, ?_, ?_, ?_⟩
      · rw [(getRecommendedCourses_eq st).1, mem_sortByPriorityDesc]
        exact List.mem_map_of_mem _ (List.mem_filter.mpr ⟨hc, by simp [nextPred, helig, h4]⟩)
      · exact not_in_elect_of st c (by simp [electPred, h4])
      · exact not_in_missed_of st c (by simp [missedPred, h4])
      · exact not_in_future_of st c (by simp [futurePred, h4])
    · intro h4 h5
      refine ⟨?_, ?_, ?_, ?_⟩
      · rw [(getRecommendedCourses_eq st).2.1]
        exact List.mem_filter.mpr ⟨hc, by simp [electPred, helig, h4, h5]⟩
      · exact not_in_next_of st c (by simp [nextPred, h4])
      · exact not_in_missed_of st c (by simp [missedPred, h5])
      · exact not_in_future_of st c (by simp [futurePred, h5])
    · intro h4 h5 h6
      refine ⟨?_, ?_, ?_, ?_⟩
      · rw [(getRecommendedCourses_eq st).2.2.1]
        refine List.mem_filter.mpr ⟨hc, ?_⟩
        unfold missedPred
        rw [helig, h4, h5]
        simp [h6]
      · exact not_in_next_of st c (by simp [nextPred, h4])
      · exact not_in_elect_of st c (by simp [electPred, h5])
      · exact not_in_future_of st c (by simp [futurePred, h6])
    · intro h4 h5 h6
      refine ⟨?_, ?_, ?_, ?_⟩
      · rw [(getRecommendedCourses_eq st).2.2.2]
        refine List.mem_filter.mpr ⟨hc, ?_⟩
        unfold futurePred
        rw [helig, h4, h5]
        simp [h6]
      · exact not_in_next_of st c (by simp [nextPred, h4])
      · exact not_in_elect_of st c (by simp [electPred, h5])
      · exact not_in_missed_of st c (by simp [missedPred, h6])

/-- The spec scenario state: curriculum CS101 (semester 1, Area Core, no
prerequisites) and CS102 (semester 2, Area Core, prerequisite CS101);
CS101 completed and passed with 6 credits; CS102 offered. -/
def crsCS101 : CurriculumCourse :=
  { semester := 1, code := "CS101", title := "Introduction to Computer Science",
    category := "AC", lecture := 3, tutorial := 1, lab := 2, totalCredit := 6,
    prerequisites := [], ects := 6 }

/-- Curriculum course CS102 of the spec scenario. -/
def crsCS102 : CurriculumCourse :=
  { semester := 2, code := "CS102", title := "Data Structures", category := "AC",
    lecture := 3, tutorial := 1, lab := 2, totalCredit := 6,
    prerequisites := ["CS101"], ects := 6 }

/-- Completed course CS101 of the spec scenario. -/
def ccCS101 : CompletedCourse :=
  { code := "CS101", title := "Introduction to Computer Science", grade := "A",
    credits := 6, ects := 6, gradePoints := 4, passed := true }

/-- The assembled spec-scenario advisor state. -/
def stScenario : AdvisorState :=
  { curriculum := [crsCS101, crsCS102]
    completedCourses := [("CS101", ccCS101)]
    availableCourses := [{ code := "CS102", title := "Data Structures" }]
    studentInfo := [] }

/-- Witness for C1 at the spec scenario: the estimate is 1, CS102 is
eligible, its semester 2 equals estimate + 1, and it lands in
nextSemesterCourses and not in availableElectives. -/
theorem getRecommendedCourses_classification_witness :
    mkRecCourse stScenario (getCurrentSemester stScenario.completedCourses) crsCS102
        ∈ (getRecommendedCourses stScenario).nextSemesterCourses
    ∧ crsCS102 ∉ (getRecommendedCourses stScenario).availableElectives := by
  have hcur : getCurrentSemester stScenario.completedCourses = 1 := by
    norm_num [getCurrentSemester, passedValues, stScenario, ccCS101, Rat.floor_def']
  have h := ((getRecommendedCourses_classification stScenario crsCS102 (by decide)).2
    (by decide)).1 (by rw [hcur]; decide)
  exact ⟨h.1, h.2.1⟩

/-- C7: a passing completed entry excludes every curriculum course whose
code is either the entry key itself or the key with one trailing
uppercase letter stripped, from all four recommendation buckets. -/
theorem completed_excluded (st : AdvisorState) (k : String) (cc : CompletedCourse)
    (hmem : (k, cc) ∈ st.completedCourses) (hp : cc.passed = true)
    (c : CurriculumCourse) (hcode : c.code = k ∨ c.code = baseCode k) :
    (∀ r ∈ (getRecommendedCourses st).nextSemesterCourses, r.course ≠ c)
    ∧ c ∉ (getRecommendedCourses st).availableElectives
    ∧ c ∉ (getRecommendedCourses st).missedCourses
    ∧ c ∉ (getRecommendedCourses st).futureRecommendations := by
  have hkey : k ∈ passedKeys st.completedCourses := by
    unfold passedKeys
    exact List.mem_map_of_mem _ (List.mem_filter.mpr ⟨hmem, by simpa using hp⟩)
  have hbase : c.code ∈ passedBaseKeys st.completedCourses := by
    unfold passedBaseKeys
    rcases hcode with h | h
    · rw [h]
      exact List.mem_append_right _ hkey
    · rw [h]
      exact List.mem_append_left _ (List.mem_map_of_mem _ hkey)
  have hcontains : (passedBaseKeys st.completedCourses).contains c.code = true := by
    simpa using hbase
  have hcc : isCompletedCode st.completedCourses c.code = true := by
    simp only [isCompletedCode, Bool.or_eq_true]
    exact Or.inr hcontains
  exact not_in_buckets st c (by simp [eligibleCourse, hcc])

/-- The transcript entry PHYS121F of the base-code scenario. -/
def ccPHYS121F : CompletedCourse :=
  { code := "PHYS121F", title := "", grade := "B", credits := 4, ects := 5,
    gradePoints := 3, passed := true }

/-- Curriculum course PHYS121 of the base-code scenario. -/
def crsPHYS121 : CurriculumCourse :=
  { semester := 1, code := "PHYS121", title := "Physics I", category := "FC",
    lecture := 3, tutorial := 1, lab := 1, totalCredit := 4, prerequisites := [],
    ects := 5 }

/-- The assembled base-code scenario advisor state. -/
def stPhys : AdvisorState :=
  { curriculum := [crsPHYS121]
    completedCourses := [("PHYS121F", ccPHYS121F)]
    availableCourses := [{ code := "PHYS121", title := "Physics I" }]
    studentInfo := [] }

/-- Witness for C7 at a concrete input: the passing entry under key
PHYS121F has base code PHYS121, so curriculum course PHYS121 is excluded
from every bucket even though it is offered and has no prerequisites. -/
theorem completed_excluded_witness :
    (∀ r ∈ (getRecommendedCourses stPhys).nextSemesterCourses, r.course ≠ crsPHYS121)
    ∧ crsPHYS121 ∉ (getRecommendedCourses stPhys).availableElectives
    ∧ crsPHYS121 ∉ (getRecommendedCourses stPhys).missedCourses
    ∧ crsPHYS121 ∉ (getRecommendedCourses stPhys).futureRecommendations :=
  completed_excluded stPhys "PHYS121F" ccPHYS121F (by decide) (by decide) crsPHYS121
    (Or.inr (by decide))

/-- The pair returned by a successful loadAndRecommend call. -/
structure RecommendResult where
  progressReport : ProgressReport
  recommendations : Recommendations
deriving DecidableEq

/-- loadAndRecommend from the source with its file read abstracted: the
argument is the outcome of loadParsedData (none when the saved JSON file
cannot be read, in which case the method throws and reports the error
string; some state when loading succeeded). On success it simply runs
getRecommendedCourses and generateProgressReport on whatever state was
loaded, with no check that the curriculum is nonempty. -/
def loadAndRecommendCore (loaded : Option AdvisorState) : Except String RecommendResult :=
  match loaded with
  | none => Except.error "Failed to load parsed data from JSON"
  | some st =>
      Except.ok { progressReport := generateProgressReport st
                  recommendations := getRecommendedCourses st }

/-- C9 counterexample: with an empty curriculum collection successfully
loaded, the recommendation call succeeds and returns four empty buckets;
no MissingInput-style failure is surfaced. -/
theorem loadAndRecommend_empty_counterexample :
    (loadAndRecommendCore
        (some { curriculum := [], completedCourses := [], availableCourses := [],
                studentInfo := [] })).toOption.map (fun r => r.recommendations)
      = some { nextSemesterCourses := [], availableElectives := [], missedCourses := [],
               futureRecommendations := [] } := rfl

/-- C9 amended: recommending over an empty curriculum silently succeeds
with all four buckets empty, for every completed and available
collection; the only failure the method surfaces is the failure to load
the saved-data file at all, reported as an error string. -/
theorem loadAndRecommend_empty_eq (completed : List (String × CompletedCourse))
    (avail : List AvailableCourse) (sinfo : List (String × String)) :
    ((loadAndRecommendCore
        (some { curriculum := [], completedCourses := completed, availableCourses := avail,
                studentInfo := sinfo })).toOption.map (fun r => r.recommendations)
      = some { nextSemesterCourses := [], availableElectives := [], missedCourses := [],
               futureRecommendations := [] })
    ∧ loadAndRecommendCore none = Except.error "Failed to load parsed data from JSON" :=
  ⟨rfl, rfl⟩

/-- A key found by mapGet with a passing value is a passing key. -/
theorem mapGet_passed_key (m : List (String × CompletedCourse)) (k : String)
    (cc : CompletedCourse) (h : mapGet m k = some cc) (hp : cc.passed = true) :
    k ∈ passedKeys m := by
  unfold mapGet at h
  rcases Option.map_eq_some'.mp h with ⟨e, hfind, hsnd⟩
  have hmem : e ∈ m := List.mem_of_find?_eq_some hfind
  have hkey : e.1 = k := by
    have := List.find?_some hfind
    simpa using this
  have hpass : e.2.passed = true := by rw [hsnd]; exact hp
  unfold passedKeys
  rw [← hkey]
  exact List.mem_map_of_mem _ (List.mem_filter.mpr ⟨hmem, by simpa using hpass⟩)

/-- An eligible course cannot list its own code as a prerequisite: the
prerequisite check would require the code to be a passing completion,
which the not-completed check forbids. -/
theorem no_self_prereq (st : AdvisorState) (c : CurriculumCourse)
    (h : eligibleCourse st c = true) : c.code ∉ c.prerequisites := by
  intro hmem
  have hparts := h
  unfold eligibleCourse at hparts
  rw [Bool.and_assoc] at hparts
  rcases Bool.and_eq_true_iff.mp hparts with ⟨hnc, hrest⟩
  rcases Bool.and_eq_true_iff.mp hrest with ⟨_, hpr⟩
  unfold arePrerequisitesMet at hpr
  have hne : ¬ c.prerequisites.isEmpty = true := by
    rw [List.isEmpty_iff]
    exact List.ne_nil_of_mem hmem
  rw [if_neg hne, List.all_eq_true] at hpr
  rcases (prereqEntry_iff (mapGet st.completedCourses c.code)).mp (hpr c.code hmem)
    with ⟨cc, hget, hpass⟩
  have hkey : c.code ∈ passedKeys st.completedCourses :=
    mapGet_passed_key st.completedCourses c.code cc hget hpass
  have hcontains : (passedKeys st.completedCourses).contains c.code = true := by
    simpa using hkey
  have : isCompletedCode st.completedCourses c.code = true := by
    simp only [isCompletedCode, Bool.or_eq_true]
    exact Or.inl hcontains
  rw [this] at hnc
  simp at hnc

/-- Every nextSemesterCourses entry comes from a curriculum course that
satisfies the nextSemesterCourses predicate, and carries exactly the
calculatePriority value of its course. -/
theorem next_elem_spec (st : AdvisorState) (r : RecCourse)
    (hr : r ∈ (getRecommendedCourses st).nextSemesterCourses) :
    r.course ∈ st.curriculum
    ∧ nextPred st (getCurrentSemester st.completedCourses) r.course = true
    ∧ r.priority = calculatePriority st.curriculum r.course
        (getCurrentSemester st.completedCourses) := by
  rw [(getRecommendedCourses_eq st).1, mem_sortByPriorityDesc] at hr
  rcases List.mem_map.mp hr with ⟨c', hc', rfl⟩
  rcases List.mem_filter.mp hc' with ⟨hmem, hpred⟩
  exact ⟨by simpa [mkRecCourse] using hmem, by simpa [mkRecCourse] using hpred,
    by simp [mkRecCourse]⟩

/-- The priority formula exactly as the claim words it: +10 Area Core,
+8 Faculty Core, +6 University Core, +5 when the semester equals the
estimate and +3 when it equals the estimate plus one, +4 in the
high-semester catch-up case, minus one (estimate above 8) or two
(otherwise) for a delayed course, and +2 for every OTHER curriculum
course listing this code among its prerequisites. -/
def prioritySpec (curriculum : List CurriculumCourse) (course : CurriculumCourse)
    (currentSemester : Int) : Int :=
  (if course.category = "AC" then 10 else 0)
  + (if course.category = "FC" then 8 else 0)
  + (if course.category = "UC" then 6 else 0)
  + (if course.semester = currentSemester then 5 else 0)
  + (if course.semester = currentSemester + 1 then 3 else 0)
  + (if currentSemester > 8 ∧ course.semester ≤ 8 then 4 else 0)
  + (if course.semester < currentSemester then (if currentSemester > 8 then -1 else -2) else 0)
  + 2 * ((curriculum.filter
      (fun c => decide (c ≠ course ∧ course.code ∈ c.prerequisites))).length : Int)

set_option maxHeartbeats 1600000 in
/-- On a course that does not list itself as a prerequisite, the source
priority computation agrees with the claim formula: the unlock scan of
the source counts every curriculum entry, but the course itself can never
be among them. -/
theorem calculatePriority_eq_spec (curriculum : List CurriculumCourse)
    (course : CurriculumCourse) (currentSemester : Int)
    (hno : course.code ∉ course.prerequisites) :
    calculatePriority curriculum course currentSemester
      = prioritySpec curriculum course currentSemester := by
  have hcount : curriculum.filter (fun c => c.prerequisites.contains course.code)
      = curriculum.filter (fun c => decide (c ≠ course ∧ course.code ∈ c.prerequisites)) := by
    apply List.filter_congr
    intro c _
    by_cases hc : c = course
    · subst hc
      simp [hno]
    · simp [hc]
  unfold calculatePriority prioritySpec
  rw [hcount]
  split_ifs <;> ring

set_option maxHeartbeats 1600000 in
/-- Two courses that differ only in category, one Area Core and the other
of an elective category, have priorities apart by exactly the Area Core
bonus: the Area Core one is strictly larger. -/
theorem calculatePriority_cat_lt (curriculum : List CurriculumCourse)
    (c₁ c₂ : CurriculumCourse) (h : c₁ = { c₂ with category := "AC" })
    (hcat : c₂.category ∈ (["AE", "FE", "UE"] : List String)) (currentSemester : Int) :
    calculatePriority curriculum c₂ currentSemester
      < calculatePriority curriculum c₁ currentSemester := by
  subst h
  simp only [List.mem_cons, List.not_mem_nil, or_false] at hcat
  have h1 : c₂.category ≠ "AC" := by
    rcases hcat with h | h | h <;> rw [h] <;> decide
  have h2 : c₂.category ≠ "FC" := by
    rcases hcat with h | h | h <;> rw [h] <;> decide
  have h3 : c₂.category ≠ "UC" := by
    rcases hcat with h | h | h <;> rw [h] <;> decide
  unfold calculatePriority
  simp [h1, h2, h3]
  split_ifs <;> omega

/-- In a pairwise-descending list, an entry of strictly larger priority
occurs strictly earlier than one of smaller priority. -/
theorem get_lt_of_sorted (l : List RecCourse)
    (hs : l.Pairwise (fun a b => b.priority ≤ a.priority))
    (r₁ r₂ : RecCourse) (i j : ℕ) (h₁ : l.get? i = some r₁) (h₂ : l.get? j = some r₂)
    (hlt : r₂.priority < r₁.priority) : i < j := by
  rcases List.get?_eq_some.mp h₁ with ⟨hi, hg₁⟩
  rcases List.get?_eq_some.mp h₂ with ⟨hj, hg₂⟩
  by_contra hij
  push_neg at hij
  rcases Nat.lt_or_ge j i with hji | hji
  · have := (List.pairwise_iff_get.mp hs) ⟨j, hj⟩ ⟨i, hi⟩ hji
    rw [hg₁, hg₂] at this
    omega
  · have heq : i = j := le_antisymm hji hij
    subst heq
    rw [hg₁] at hg₂
    rw [hg₂] at hlt
    omega

/-- C2: every nextSemesterCourses entry carries the priority of the claim
formula (category bonus, timing bonus, catch-up bonus, delay penalty, and
+2 per other curriculum course that lists its code as a prerequisite);
the bucket is pairwise sorted by descending priority; the sort is stable
(each priority level preserves the candidate input order); and of two
entries whose courses differ only in category, Area Core versus an
elective category, the Area Core one occupies a strictly earlier
position. -/
theorem nextSemester_priority_sorted (st : AdvisorState) :
    (∀ r ∈ (getRecommendedCourses st).nextSemesterCourses,
        r.priority = prioritySpec st.curriculum r.course
          (getCurrentSemester st.completedCourses))
    ∧ (getRecommendedCourses st).nextSemesterCourses.Pairwise
        (fun a b => b.priority ≤ a.priority)
    ∧ (∀ p : Int,
        (getRecommendedCourses st).nextSemesterCourses.filter (fun x => x.priority == p)
          = ((st.curriculum.filter
                (nextPred st (getCurrentSemester st.completedCourses))).map
              (mkRecCourse st (getCurrentSemester st.completedCourses))).filter
              (fun x => x.priority == p))
    ∧ (∀ (r₁ r₂ : RecCourse) (i j : ℕ),
        (getRecommendedCourses st).nextSemesterCourses.get? i = some r₁ →
        (getRecommendedCourses st).nextSemesterCourses.get? j = some r₂ →
        r₁.course = { r₂.course with category := "AC" } →
        r₂.course.category ∈ (["AE", "FE", "UE"] : List String) →
        i < j) := by
  have hsorted : (getRecommendedCourses st).nextSemesterCourses.Pairwise
      (fun a b => b.priority ≤ a.priority) := by
    rw [(getRecommendedCourses_eq st).1]
    exact pairwise_sortByPriorityDesc _
  refine ⟨?_, hsorted, ?_, ?_⟩
  · intro r hr
    rcases next_elem_spec st r hr with ⟨_, hpred, hprio⟩
    have helig : eligibleCourse st r.course = true :=
      (Bool.and_eq_true_iff.mp hpred).1
    rw [hprio]
    exact calculatePriority_eq_spec st.curriculum r.course
      (getCurrentSemester st.completedCourses) (no_self_prereq st r.course helig)
  · intro p
    rw [(getRecommendedCourses_eq st).1]
    exact filter_sortByPriorityDesc _ p
  · intro r₁ r₂ i j h₁ h₂ hdiff hcat
    have hm₁ : r₁ ∈ (getRecommendedCourses st).nextSemesterCourses := List.get?_mem h₁
    have hm₂ : r₂ ∈ (getRecommendedCourses st).nextSemesterCourses := List.get?_mem h₂
    rcases next_elem_spec st r₁ hm₁ with ⟨_, _, hp₁⟩
    rcases next_elem_spec st r₂ hm₂ with ⟨_, _, hp₂⟩
    have hlt : r₂.priority < r₁.priority := by
      rw [hp₁, hp₂]
      exact calculatePriority_cat_lt st.curriculum r₁.course r₂.course hdiff hcat
        (getCurrentSemester st.completedCourses)
    exact get_lt_of_sorted _ hsorted r₁ r₂ i j h₁ h₂ hlt

/-- Sorting scenario: the same course offered under the Area Core and the
University Elective category. -/
def crsSortAC : CurriculumCourse :=
  { semester := 1, code := "ENGR200", title := "Engineering Economy", category := "AC",
    lecture := 3, tutorial := 0, lab := 0, totalCredit := 3, prerequisites := [], ects := 5 }

/-- The University Elective twin of the sorting scenario course. -/
def crsSortUE : CurriculumCourse :=
  { semester := 1, code := "ENGR200", title := "Engineering Economy", category := "UE",
    lecture := 3, tutorial := 0, lab := 0, totalCredit := 3, prerequisites := [], ects := 5 }

/-- The sorting scenario state: both category twins in the curriculum
(elective listed first would also work; here Area Core is first), nothing
completed, the course offered. -/
def stSort : AdvisorState :=
  { curriculum := [crsSortAC, crsSortUE]
    completedCourses := []
    availableCourses := [{ code := "ENGR200", title := "Engineering Economy" }]
    studentInfo := [] }

/-- Witness for C2 at the sorting scenario: the estimate is 1, both twins
are candidates, and the Area Core entry (priority 15) sits at position 0,
before the University Elective entry (priority 5) at position 1; the
strict position ordering is obtained from the sorting theorem itself. -/
theorem nextSemester_priority_sorted_witness :
    (getRecommendedCourses stSort).nextSemesterCourses.get? 0
        = some (mkRecCourse stSort 1 crsSortAC)
    ∧ (getRecommendedCourses stSort).nextSemesterCourses.get? 1
        = some (mkRecCourse stSort 1 crsSortUE)
    ∧ (0 : ℕ) < 1 := by
  have hcur : getCurrentSemester stSort.completedCourses = 1 := by
    norm_num [getCurrentSemester, passedValues, stSort, Rat.floor_def']
  have hnext : (getRecommendedCourses stSort).nextSemesterCourses
      = [mkRecCourse stSort 1 crsSortAC, mkRecCourse stSort 1 crsSortUE] := by
    rw [(getRecommendedCourses_eq stSort).1, hcur]
    decide
  refine ⟨by rw [hnext]; rfl, by rw [hnext]; rfl, ?_⟩
  exact (nextSemester_priority_sorted stSort).2.2.2
    (mkRecCourse stSort 1 crsSortAC) (mkRecCourse stSort 1 crsSortUE) 0 1
    (by rw [hnext]; rfl) (by rw [hnext]; rfl) (by decide) (by decide)

/-- JavaScript digit class backslash-d: the ASCII digits. -/
def isDigitC (c : Char) : Bool := c.isDigit

/-- JavaScript whitespace class backslash-s (the ASCII fragment relevant
to these inputs: space, tab, line feed, carriage return, vertical tab,
form feed). -/
def isWSC (c : Char) : Bool :=
  c == ' ' || c == '\t' || c == '\n' || c == '\r' || c == '\x0b' || c == '\x0c'

/-- The class [A-Z] without the ignore-case flag. -/
def isUpperC (c : Char) : Bool := decide ('A' ≤ c ∧ c ≤ 'Z')

/-- The class [A-Z] under the ignore-case flag: either case of an ASCII
letter. -/
def isLetterCI (c : Char) : Bool := isUpperC c || decide ('a' ≤ c ∧ c ≤ 'z')

/-- The JavaScript dot: any character except a line terminator. -/
def isDotC (c : Char) : Bool := !(c == '\n') && !(c == '\r')

/-- Regular expressions of the shapes used by the curriculum extractor:
literals (optionally case-insensitive), counted repetitions of a
character class (greedy or lazy), sequencing, alternation, capture
groups, and the greedy optional group. -/
inductive RE where
  | eps : RE
  | lit : List Char → Bool → RE
  | rep : (Char → Bool) → Nat → Option Nat → Bool → RE
  | cat : RE → RE → RE
  | alt : RE → RE → RE
  | grp : Nat → RE → RE
  | opt : RE → RE

/-- Capture assignments recorded along the successful match path; a later
entry for the same group shadows an earlier one. -/
abbrev Caps := List (Nat × List Char)

/-- Record a capture. -/
def capSet (caps : Caps) (i : Nat) (v : List Char) : Caps := (i, v) :: caps

/-- Read a capture; none means the group did not participate in the
match (the JavaScript undefined). -/
def capGet (caps : Caps) (i : Nat) : Option (List Char) :=
  (caps.find? (fun e => e.1 == i)).map (fun e => e.2)

/-- Character comparison, optionally case-folded as under the
ignore-case flag. -/
def charEqCI (ci : Bool) (a b : Char) : Bool :=
  if ci then a.toLower == b.toLower else a == b

/-- Strip a literal (pattern-side) off the front of the input, if
present. -/
def stripLit (l : List Char) (ci : Bool) (s : List Char) : Option (List Char) :=
  match l, s with
  | [], _ => some s
  | _ :: _, [] => none
  | a :: ls, c :: s' => if charEqCI ci a c then stripLit ls ci s' else none

/-- Length of the longest prefix of the input inside the class. -/
def maxRun (p : Char → Bool) : List Char → Nat
  | [] => 0
  | c :: r => if p c then maxRun p r + 1 else 0

/-- Try the repetition counts in order, backtracking to the next count
when the continuation fails. -/
def firstSome (f : Nat → Option Caps) : List Nat → Option Caps
  | [] => none
  | n :: ns => f n <|> firstSome f ns

/-- The backtracking matcher in continuation-passing style: reM r s caps
k matches r against a prefix of s and hands the remaining input and
captures to k, backtracking through alternation, optionality and
repetition counts (greedy counts high to low, lazy counts low to high)
exactly as the JavaScript engine does for these patterns. -/
def reM : RE → List Char → Caps → (List Char → Caps → Option Caps) → Option Caps
  | RE.eps, s, caps, k => k s caps
  | RE.lit l ci, s, caps, k =>
      match stripLit l ci s with
      | some s' => k s' caps
      | none => none
  | RE.rep p lo hi lazy, s, caps, k =>
      let m := maxRun p s
      let top := match hi with
        | some h => min h m
        | none => m
      if lo ≤ top then
        let counts := List.range' lo (top + 1 - lo)
        firstSome (fun n => k (s.drop n) caps) (if lazy then counts else counts.reverse)
      else none
  | RE.cat a b, s, caps, k => reM a s caps (fun s' caps' => reM b s' caps' k)
  | RE.alt a b, s, caps, k => reM a s caps k <|> reM b s caps k
  | RE.grp i a, s, caps, k =>
      reM a s caps (fun s' caps' => k s' (capSet caps' i (s.take (s.length - s'.length))))
  | RE.opt a, s, caps, k => reM a s caps k <|> k s caps

/-- Match anchored at the current position, ignoring whatever input
remains after the match. -/
def reMatchHere (r : RE) (s : List Char) : Option Caps :=
  reM r s [] (fun _ caps => some caps)

/-- Unanchored search: the leftmost position at which the pattern
matches, as the JavaScript String.prototype.match. -/
def reSearch (r : RE) : List Char → Option Caps
  | [] => reMatchHere r []
  | s@(_ :: t) => reMatchHere r s <|> reSearch r t

/-- Sequence a list of regular expression pieces. -/
def seqRE (l : List RE) : RE := l.foldr RE.cat RE.eps

/-- Alternation over a list of pieces (empty list never matches). -/
def altOf : List RE → RE
  | [] => RE.rep (fun _ => false) 1 (some 1) false
  | [r] => r
  | r :: rs => RE.alt r (altOf rs)

/-- One or more whitespace characters. -/
def ws1 : RE := RE.rep isWSC 1 none false

/-- One or more digits. -/
def digits1 : RE := RE.rep isDigitC 1 none false

/-- Semester marker pattern 1 of parseCurriculum: a leading integer token
followed by whitespace, anchored. -/
def semP1 : RE := seqRE [RE.grp 1 digits1, ws1]

/-- Semester marker pattern 2: the word semester (ignore-case), then
whitespace and a captured integer, anywhere in the line. -/
def semP2 : RE := seqRE [RE.lit "semester".data true, ws1, RE.grp 1 digits1]

/-- First alternative of semester marker pattern 3 as the source regex
associates it: anchored digits captured into group 1 followed by the
letters st (ignore-case). -/
def semP3alt1 : RE := seqRE [RE.grp 1 digits1, RE.lit "st".data true]

/-- The remaining alternatives of marker pattern 3 exactly as the
unparenthesised source regex associates them: a bare nd, a bare rd, or
th followed by whitespace and the word semester — none of which captures
anything. -/
def semP3rest : RE :=
  RE.alt (RE.lit "nd".data true)
    (RE.alt (RE.lit "rd".data true)
      (seqRE [RE.lit "th".data true, ws1, RE.lit "semester".data true]))

/-- Semester marker pattern 4: the word year at the start of the line,
whitespace, and a captured integer. -/
def semP4 : RE := seqRE [RE.lit "year".data true, ws1, RE.grp 1 digits1]

/-- parseInt applied to digit captures of the marker patterns. -/
def digitsToNat (cs : List Char) : Nat :=
  cs.foldl (fun a c => a * 10 + (c.toNat - 48)) 0

/-- The extractor state variable currentSemester: initially null, and a
number or NaN after a marker matched (NaN arises from parseInt of an
undefined capture). Only a nonzero number is truthy. -/
inductive SemState where
  | null : SemState
  | nan : SemState
  | num : Nat → SemState
deriving DecidableEq

/-- Outcome of pattern 3 on a line: no match, a match through the
capturing first alternative, or a match through a capture-free
alternative (whose parseInt is NaN). The first alternative is anchored
so it is tried exactly at position zero, before the unanchored rest. -/
def semP3Match (t : List Char) : Option (Option Nat) :=
  match reMatchHere semP3alt1 t with
  | some caps => some (some (digitsToNat ((capGet caps 1).getD [])))
  | none =>
      match reSearch semP3rest t with
      | some _ => some none
      | none => none

/-- The semester detection loop of parseCurriculum: the four marker
patterns tried in order, first match wins, updating currentSemester to
parseInt of capture 1 (NaN when the capture is undefined); when no
pattern matches the state is unchanged. -/
def detectSemester (t : List Char) (cur : SemState) : SemState :=
  match reMatchHere semP1 t with
  | some caps => SemState.num (digitsToNat ((capGet caps 1).getD []))
  | none =>
      match reSearch semP2 t with
      | some caps => SemState.num (digitsToNat ((capGet caps 1).getD []))
      | none =>
          match semP3Match t with
          | some (some n) => SemState.num n
          | some none => SemState.nan
          | none =>
              match reMatchHere semP4 t with
              | some caps => SemState.num (digitsToNat ((capGet caps 1).getD []))
              | none => cur

/-- The course code group of the extraction patterns: two to four
letters (ignore-case when the source pattern carries the i flag) then
three to four digits. -/
def codeRE (ci : Bool) : RE :=
  RE.grp 1 (RE.cat (RE.rep (if ci then isLetterCI else isUpperC) 2 (some 4) false)
    (RE.rep isDigitC 3 (some 4) false))

/-- The category alternation of the extraction patterns (ignore-case). -/
def catAlt (g : Nat) : RE :=
  RE.grp g (altOf
    [RE.lit "AC".data true, RE.lit "FC".data true, RE.lit "UC".data true,
     RE.lit "FE".data true, RE.lit "AE".data true, RE.lit "UE".data true,
     RE.lit "CORE".data true, RE.lit "ELECTIVE".data true])

/-- A lazy dot-plus capture, used for titles and the prerequisite list. -/
def lazyCap (g : Nat) : RE := RE.grp g (RE.rep isDotC 1 none true)

/-- Course extraction pattern 0 (full form, ignore-case): code, title,
category, the four integers, an optional prerequisite blob, and ECTS. -/
def coursePat0 : RE :=
  seqRE [codeRE true, ws1, lazyCap 2, ws1, catAlt 3, ws1, RE.grp 4 digits1, ws1,
    RE.grp 5 digits1, ws1, RE.grp 6 digits1, ws1, RE.grp 7 digits1,
    RE.opt (seqRE [ws1, lazyCap 8]), ws1, RE.grp 9 digits1]

/-- Course extraction pattern 1 (reduced form, ignore-case): code,
title, credits, ECTS, category. -/
def coursePat1 : RE :=
  seqRE [codeRE true, ws1, lazyCap 2, ws1, RE.grp 3 digits1, ws1, RE.grp 4 digits1,
    ws1, catAlt 5]

/-- Course extraction pattern 2 (minimal form, case-sensitive): code,
title, credits. -/
def coursePat2 : RE :=
  seqRE [codeRE false, ws1, lazyCap 2, ws1, RE.grp 3 digits1]

/-- The trim applied to every line and every captured field. -/
def jsTrim (cs : List Char) : List Char :=
  ((cs.dropWhile isWSC).reverse.dropWhile isWSC).reverse

/-- Split on a separator character, as String.prototype.split does:
splitting the empty text yields one empty piece. -/
def splitOnChar (sep : Char) : List Char → List (List Char)
  | [] => [[]]
  | c :: r =>
      let rest := splitOnChar sep r
      if c = sep then [] :: rest
      else
        match rest with
        | [] => [[c]]
        | h :: t => (c :: h) :: t

/-- parseInt of a digit capture, with group index. -/
def natCap (caps : Caps) (i : Nat) : Nat := digitsToNat ((capGet caps i).getD [])

/-- A captured field, trimmed, as a string. -/
def trimCap (caps : Caps) (i : Nat) : String := String.mk (jsTrim ((capGet caps i).getD []))

/-- The prerequisite blob handling of pattern 0: when the optional group
participated, split on commas, trim each token, and drop empty tokens
and the placeholder dash; otherwise the empty list. -/
def parsePrereqs (o : Option (List Char)) : List String :=
  match o with
  | none => []
  | some cs =>
      ((splitOnChar ',' cs).map (fun p => String.mk (jsTrim p))).filter
        (fun p => !(p == "") && !(p == "-"))

/-- The course extraction step of parseCurriculum at a truthy current
semester n: the three patterns tried in fixed order, first match wins,
with the field mapping and defaults of the source (pattern 1 zeroes the
lecture split, pattern 2 additionally defaults the category to UC and
the ECTS to the credits). -/
def extractCourse (n : Nat) (t : List Char) : Option CurriculumCourse :=
  match reSearch coursePat0 t with
  | some caps => some
      { semester := (n : Int)
        code := trimCap caps 1
        title := trimCap caps 2
        category := trimCap caps 3
        lecture := (natCap caps 4 : Int)
        tutorial := (natCap caps 5 : Int)
        lab := (natCap caps 6 : Int)
        totalCredit := (natCap caps 7 : Int)
        prerequisites := parsePrereqs (capGet caps 8)
        ects := (natCap caps 9 : Int) }
  | none =>
      match reSearch coursePat1 t with
      | some caps => some
          { semester := (n : Int)
            code := trimCap caps 1
            title := trimCap caps 2
            category := trimCap caps 5
            lecture := 0
            tutorial := 0
            lab := 0
            totalCredit := (natCap caps 3 : Int)
            prerequisites := []
            ects := (natCap caps 4 : Int) }
      | none =>
          match reSearch coursePat2 t with
          | some caps => some
              { semester := (n : Int)
                code := trimCap caps 1
                title := trimCap caps 2
                category := "UC"
                lecture := 0
                tutorial := 0
                lab := 0
                totalCredit := (natCap caps 3 : Int)
                prerequisites := []
                ects := (natCap caps 3 : Int) }
          | none => none

/-- One loop iteration of parseCurriculum: trim the line, run semester
detection, and extract a course only when the updated currentSemester is
truthy (a number other than zero; null and NaN are falsy). -/
def parseCurriculumLine (state : SemState × List CurriculumCourse) (line : List Char) :
    SemState × List CurriculumCourse :=
  let t := jsTrim line
  let cur := detectSemester t state.1
  match cur with
  | SemState.num n =>
      if n ≠ 0 then
        match extractCourse n t with
        | some course => (cur, state.2 ++ [course])
        | none => (cur, state.2)
      else (cur, state.2)
  | _ => (cur, state.2)

/-- parseCurriculum from the source: split the document text on line
feeds and fold the per-line step from a null semester state. -/
def parseCurriculum (content : String) : List CurriculumCourse :=
  ((splitOnChar '\n' content.data).foldl parseCurriculumLine (SemState.null, [])).2

/-- Whatever pattern matched, the emitted record carries the truthy
current semester it was extracted under. -/
theorem extractCourse_semester (n : Nat) (t : List Char) (c : CurriculumCourse)
    (h : extractCourse n t = some c) : c.semester = (n : Int) := by
  unfold extractCourse at h
  split at h
  · cases h
    rfl
  · split at h
    · cases h
      rfl
    · split at h
      · cases h
        rfl
      · cases h

/-- One extraction step preserves the semester lower bound: a course is
only emitted under a truthy (nonzero, non-NaN) semester state. -/
theorem parseCurriculumLine_inv (st : SemState × List CurriculumCourse) (line : List Char)
    (h : ∀ c ∈ st.2, 1 ≤ c.semester) :
    ∀ c ∈ (parseCurriculumLine st line).2, 1 ≤ c.semester := by
  intro c hc
  unfold parseCurriculumLine at hc
  dsimp only at hc
  split at hc
  · rename_i n heq
    by_cases hn : n ≠ 0
    · rw [if_pos hn] at hc
      cases hx : extractCourse n (jsTrim line) with
      | none =>
          rw [hx] at hc
          exact h c hc
      | some course =>
          rw [hx] at hc
          simp only [List.mem_append, List.mem_singleton] at hc
          rcases hc with hc | hc
          · exact h c hc
          · subst hc
            rw [extractCourse_semester n (jsTrim line) c hx]
            have : 1 ≤ n := Nat.one_le_iff_ne_zero.mpr hn
            exact_mod_cast this
    · rw [if_neg hn] at hc
      exact h c hc
  · exact h c hc

/-- The fold over all lines preserves the semester lower bound. -/
theorem foldl_parseCurriculumLine_inv (lines : List (List Char))
    (st : SemState × List CurriculumCourse) (h : ∀ c ∈ st.2, 1 ≤ c.semester) :
    ∀ c ∈ (lines.foldl parseCurriculumLine st).2, 1 ≤ c.semester := by
  induction lines generalizing st with
  | nil => exact h
  | cons l ls ih => exact ih _ (parseCurriculumLine_inv st l h)

/-- C10: every record emitted by the curriculum extractor, on any input
text, has an integer semester of at least one: the truthiness guard on
currentSemester rejects the null initial state, a parsed marker value of
zero, and the NaN produced by an unparseable marker. -/
theorem parseCurriculum_semester_ge_one (content : String) (c : CurriculumCourse)
    (hc : c ∈ parseCurriculum content) : 1 ≤ c.semester := by
  unfold parseCurriculum at hc
  exact foldl_parseCurriculumLine_inv _ (SemState.null, []) (by simp) c hc

/-- Witness for C10 at a concrete input: the course extracted under the
Semester 2 marker has semester 2, at least one. -/
theorem parseCurriculum_semester_ge_one_witness :
    ({ semester := 2, code := "CS101", title := "Introduction to Computing",
       category := "UC", lecture := 0, tutorial := 0, lab := 0, totalCredit := 3,
       prerequisites := [], ects := 3 } : CurriculumCourse)
      ∈ parseCurriculum "Semester 2\nCS101 Introduction to Computing 3"
    ∧ (1 : Int) ≤
      ({ semester := 2, code := "CS101", title := "Introduction to Computing",
         category := "UC", lecture := 0, tutorial := 0, lab := 0, totalCredit := 3,
         prerequisites := [], ects := 3 } : CurriculumCourse).semester :=
  ⟨by decide,
   parseCurriculum_semester_ge_one "Semester 2\nCS101 Introduction to Computing 3" _
     (by decide)⟩

/-- C8: the ordinal marker regex of the source is the unparenthesised
alternation digits-st OR nd OR rd OR th-whitespace-semester, so the line
2nd Semester matches through the bare capture-free nd alternative:
parseInt of the undefined capture makes currentSemester NaN instead of
2, and the following course line is dropped instead of being extracted
under semester 2 — while the same course line under the marker
Semester 2 is extracted. -/
theorem ordinalMarker_nan_bug :
    detectSemester (jsTrim "2nd Semester".data) SemState.null = SemState.nan
    ∧ parseCurriculum "2nd Semester\nCS101 Introduction to Computing 3" = []
    ∧ parseCurriculum "Semester 2\nCS101 Introduction to Computing 3"
        = [{ semester := 2, code := "CS101", title := "Introduction to Computing",
             category := "UC", lecture := 0, tutorial := 0, lab := 0, totalCredit := 3,
             prerequisites := [], ects := 3 }] :=
  ⟨by decide, by decide, by decide⟩
